import Mathlib

/-!
Shallow embedding of the rwc word-count utility (src/main.rs and
src/options.rs) and proofs about its statistics accumulator, its
snapshot combination, its fixed-capacity string builder and its
report rendering.

Machine integers are modelled as natural numbers: every u32 operation
of the program reduces modulo 4294967296 and every u16 operation
modulo 65536, exactly where the Rust code performs a wrapping add or a
truncating `as` cast.
-/

/-- Whitespace predicate of the Rust standard library (the Unicode
White_Space property), the one used by split_whitespace in read_file. -/
def rustIsWhitespace (c : Char) : Bool :=
  (9 ≤ c.toNat && c.toNat ≤ 13) || c.toNat == 32 || c.toNat == 133 ||
  c.toNat == 160 || c.toNat == 5760 || (8192 ≤ c.toNat && c.toNat ≤ 8202) ||
  c.toNat == 8232 || c.toNat == 8233 || c.toNat == 8239 ||
  c.toNat == 8287 || c.toNat == 12288

/-- Byte count of the UTF-8 encoding of one character; the Rust
String::len of the scratch buffer is the sum of these over the line. -/
def charUtf8Len (c : Char) : Nat :=
  if c.toNat < 128 then 1
  else if c.toNat < 2048 then 2
  else if c.toNat < 65536 then 3
  else 4

/-- Raw byte length of a line (buffer.len() in read_file). -/
def lineBytes (l : List Char) : Nat := (l.map charUtf8Len).sum

/-- Decoded character count of a line (buffer.chars().count() in
read_file). -/
def lineChars (l : List Char) : Nat := l.length

/-- Word counter behind buffer.split_whitespace().count(): counts the
maximal runs of non-whitespace characters. The Boolean flag records
whether the previous character was inside a token. -/
def countWordsAux : Bool → List Char → Nat
  | _, [] => 0
  | inWord, c :: cs =>
    if rustIsWhitespace c then countWordsAux false cs
    else (if inWord then 0 else 1) + countWordsAux true cs

/-- buffer.split_whitespace().count() in read_file. -/
def countWords (l : List Char) : Nat := countWordsAux false l

/-- The Statistics struct of main.rs: four u32 counters and one u16
maximum, held as natural numbers that stay below the respective
modulus along every program operation. -/
@[ext]
structure Statistics where
  bytes : Nat
  chars : Nat
  lines : Nat
  words : Nat
  max_line_length : Nat
deriving DecidableEq

/-- Statistics::new() of main.rs. -/
def Statistics.new : Statistics := ⟨0, 0, 0, 0, 0⟩

/-- The Add impl for Statistics in main.rs: u32 sums of the four
counters and the maximum of the two u16 maxima. -/
def Statistics.add (a b : Statistics) : Statistics where
  bytes := (a.bytes + b.bytes) % 4294967296
  chars := (a.chars + b.chars) % 4294967296
  lines := (a.lines + b.lines) % 4294967296
  words := (a.words + b.words) % 4294967296
  max_line_length := max a.max_line_length b.max_line_length

/-- Range invariant carried by every Statistics value of the program:
the counters are u32 values and the maximum is a u16 value. -/
@[reducible]
def Statistics.Valid (s : Statistics) : Prop :=
  s.bytes < 4294967296 ∧ s.chars < 4294967296 ∧ s.lines < 4294967296 ∧
    s.words < 4294967296 ∧ s.max_line_length < 65536

/-- One iteration of the read_file loop on the line currently held in
the scratch buffer: lines += 1, bytes += buffer.len() as u32,
chars += buffer.chars().count() as u32,
words += buffer.split_whitespace().count() as u32, and
max_line_length updated with buffer.len() as u16. -/
def step (s : Statistics) (l : List Char) : Statistics where
  bytes := (s.bytes + lineBytes l % 4294967296) % 4294967296
  chars := (s.chars + lineChars l % 4294967296) % 4294967296
  lines := (s.lines + 1) % 4294967296
  words := (s.words + countWords l % 4294967296) % 4294967296
  max_line_length := max s.max_line_length (lineBytes l % 65536)

/-- One read_line outcome on the input stream: a successfully read
line (terminator bytes included when present), or an I/O failure.
End of stream is the end of the event list. -/
inductive ReadResult where
  | line (l : List Char)
  | ioError
deriving DecidableEq

/-- The loop of read_file in main.rs: folds step over the lines read,
stopping with an error as soon as a read fails (the question-mark
operator on read_line); the anyhow Result is modelled by Except. -/
def readFileAux (s : Statistics) : List ReadResult → Except Unit Statistics
  | [] => Except.ok s
  | ReadResult.ioError :: _ => Except.error ()
  | ReadResult.line l :: rest => readFileAux (step s l) rest

/-- read_file of main.rs, started from Statistics::new(). -/
def readFile (events : List ReadResult) : Except Unit Statistics :=
  readFileAux Statistics.new events

/-- The snapshot of an error-free stream given as its list of lines. -/
def readLines (ls : List (List Char)) : Statistics :=
  ls.foldl step Statistics.new

/-- Splits a character stream the way BufRead::read_line does: each
line keeps its terminating newline, and a final unterminated line is
still yielded. The accumulator holds the current line reversed. -/
def splitLinesAux (acc : List Char) : List Char → List (List Char)
  | [] => if acc.isEmpty then [] else [acc.reverse]
  | c :: cs =>
    if c = '\n' then (c :: acc).reverse :: splitLinesAux [] cs
    else splitLinesAux (c :: acc) cs

/-- The line decomposition that read_line produces on a whole stream. -/
def splitLines (input : List Char) : List (List Char) :=
  splitLinesAux [] input

/-- read_file applied to a whole error-free character stream. -/
def readString (input : List Char) : Except Unit Statistics :=
  readFile ((splitLines input).map ReadResult.line)

/-- Maximum of a list of naturals, 0 on the empty list. -/
def listMax (l : List Nat) : Nat := l.foldr max 0

/-- The Options struct of options.rs restricted to the column toggles;
the file list does not affect the rendering of one report line. -/
structure Options where
  bytes : Bool
  chars : Bool
  lines : Bool
  words : Bool
  max_line_length : Bool
  filename : Bool
  no_header : Bool
deriving DecidableEq

/-- Rendering of one numeric column by Statistics::print: the value in
decimal, right-justified with spaces to a minimum width of 8. -/
def fmtWidth8 (n : Nat) : String :=
  String.mk (List.replicate (8 - (Nat.repr n).length) ' ') ++ Nat.repr n

/-- Statistics::print of main.rs: each enabled numeric column rendered
width-8 right-justified and followed by one space, then one space and
the display name appended by the final println, unconditionally. The
trailing newline of println is not part of the line. -/
def Statistics.print (stats : Statistics) (opts : Options) (fname : String) : String :=
  let s := ""
  let s := if opts.bytes then s ++ fmtWidth8 stats.bytes ++ " " else s
  let s := if opts.chars then s ++ fmtWidth8 stats.chars ++ " " else s
  let s := if opts.lines then s ++ fmtWidth8 stats.lines ++ " " else s
  let s := if opts.words then s ++ fmtWidth8 stats.words ++ " " else s
  let s := if opts.max_line_length then s ++ fmtWidth8 stats.max_line_length ++ " " else s
  s ++ " " ++ fname

/-- The Options value of the configuration in which the filename
column is disabled and every other column keeps its default. -/
def cOptsNoFilename : Options := ⟨true, true, true, true, true, false, false⟩

/-- The FixedString struct of main.rs: N is the const capacity, data
the backing byte array of length N, len the filled size. -/
structure FixedString (N : Nat) where
  data : List Nat
  len : Nat

/-- FixedString::push_str_unchecked: copies the fragment bytes into
data at positions len to len + fragment length and advances len; the
slice indexing panics when the fragment does not fit, modelled as
none. -/
def FixedString.push_str_unchecked {N : Nat} (fs : FixedString N) (s : List Nat) :
    Option (FixedString N) :=
  if fs.len + s.length ≤ N then
    some ⟨fs.data.take fs.len ++ s ++ fs.data.drop (fs.len + s.length), fs.len + s.length⟩
  else none

/-- FixedString::write_lit forwards the literal bytes to
push_str_unchecked. -/
def FixedString.write_lit {N : Nat} (fs : FixedString N) (s : List Nat) :
    Option (FixedString N) :=
  fs.push_str_unchecked s

/-- FixedString::write_fmt formats its arguments into a string and
forwards its bytes to push_str_unchecked; the already formatted bytes
are taken as input here. -/
def FixedString.write_fmt {N : Nat} (fs : FixedString N) (s : List Nat) :
    Option (FixedString N) :=
  fs.push_str_unchecked s

/-- A line of 65536 ASCII characters, hence 65536 bytes: one byte more
than the u16 maximum 65535. -/
def longLine : List Char := List.replicate 65536 'a'

/-- A line of 4294967296 ASCII characters, hence 4294967296 bytes: one
more than the u32 maximum 4294967295. -/
def hugeLine : List Char := List.replicate 4294967296 'a'

/-- The UTF-8 length of the letter a is one byte. -/
theorem charUtf8Len_a : charUtf8Len 'a' = 1 := rfl

/-- Claim C9: on the empty stream, whose first read immediately
yields zero bytes, read_file returns the all-zero snapshot. -/
theorem read_file_empty_all_zero :
    readFile [] =
      Except.ok { bytes := 0, chars := 0, lines := 0, words := 0, max_line_length := 0 } := rfl

/-- Claim C6: on the stream with content "hello world\nfoo\n",
read_file returns bytes 16, chars 16, lines 2, words 3 and
max_line_length 12. -/
theorem read_file_hello_world_example :
    readString "hello world\nfoo\n".toList =
      Except.ok { bytes := 16, chars := 16, lines := 2, words := 3, max_line_length := 12 } := by
  rfl

/-- Mapping successful reads over the loop of read_file reduces it to
the pure fold of step. -/
theorem readFileAux_map_line (ls : List (List Char)) :
    ∀ s : Statistics,
      readFileAux s (ls.map ReadResult.line) = Except.ok (ls.foldl step s) := by
  induction ls with
  | nil => intro s; rfl
  | cons l ls ih =>
    intro s
    simp only [List.map_cons, readFileAux, List.foldl_cons]
    exact ih (step s l)

/-- read_file on an error-free stream succeeds with the pure fold. -/
theorem readFile_map_line (ls : List (List Char)) :
    readFile (ls.map ReadResult.line) = Except.ok (readLines ls) :=
  readFileAux_map_line ls Statistics.new

/-- The bytes counter of the fold: u32 sum of the per-line byte
lengths on top of an in-range starting value. -/
theorem foldl_step_bytes (ls : List (List Char)) :
    ∀ s : Statistics, s.bytes < 4294967296 →
      (ls.foldl step s).bytes = (s.bytes + (ls.map lineBytes).sum) % 4294967296 := by
  induction ls with
  | nil =>
    intro s hs
    simp [Nat.mod_eq_of_lt hs]
  | cons l ls ih =>
    intro s hs
    rw [List.foldl_cons, ih (step s l) (by simp only [step]; omega)]
    simp only [step, List.map_cons, List.sum_cons]
    omega

/-- The chars counter of the fold: u32 sum of the per-line character
counts on top of an in-range starting value. -/
theorem foldl_step_chars (ls : List (List Char)) :
    ∀ s : Statistics, s.chars < 4294967296 →
      (ls.foldl step s).chars = (s.chars + (ls.map lineChars).sum) % 4294967296 := by
  induction ls with
  | nil =>
    intro s hs
    simp [Nat.mod_eq_of_lt hs]
  | cons l ls ih =>
    intro s hs
    rw [List.foldl_cons, ih (step s l) (by simp only [step]; omega)]
    simp only [step, List.map_cons, List.sum_cons]
    omega

/-- The max_line_length field of the fold: the maximum of the starting
value and of every per-line byte length reduced to a u16. -/
theorem foldl_step_max (ls : List (List Char)) :
    ∀ s : Statistics,
      (ls.foldl step s).max_line_length =
        max s.max_line_length (listMax (ls.map (fun l => lineBytes l % 65536))) := by
  induction ls with
  | nil =>
    intro s
    simp [listMax]
  | cons l ls ih =>
    intro s
    rw [List.foldl_cons, ih (step s l)]
    simp only [step, List.map_cons, listMax, List.foldr_cons]
    omega

/-- The snapshot of a one-line stream, field by field. -/
theorem readLines_singleton (l : List Char) :
    (readLines [l]).bytes = lineBytes l % 4294967296 ∧
    (readLines [l]).chars = lineChars l % 4294967296 ∧
    (readLines [l]).max_line_length = lineBytes l % 65536 := by
  refine ⟨?_, ?_, ?_⟩ <;>
    simp only [readLines, List.foldl_cons, List.foldl_nil, step, Statistics.new] <;>
    omega

/-- Byte length of a constant line. -/
theorem lineBytes_replicate (n : Nat) (c : Char) :
    lineBytes (List.replicate n c) = n * charUtf8Len c := by
  induction n with
  | zero => simp [lineBytes]
  | succ n ih =>
    simp only [List.replicate_succ, lineBytes, List.map_cons, List.sum_cons] at ih ⊢
    rw [ih, Nat.succ_mul]
    omega

/-- Any prefix of successful reads followed by a failing read makes
the loop of read_file stop with the error. -/
theorem readFileAux_error (pre : List (List Char)) :
    ∀ (s : Statistics) (rest : List ReadResult),
      readFileAux s (pre.map ReadResult.line ++ ReadResult.ioError :: rest) =
        Except.error () := by
  induction pre with
  | nil => intro s rest; rfl
  | cons l pre ih =>
    intro s rest
    simp only [List.map_cons, List.cons_append, readFileAux]
    exact ih (step s l) rest

/-- Claim C7: whenever some read of the next line fails, read_file
returns the error to its caller and never a Statistics snapshot: the
partial accumulation over the preceding lines is discarded. -/
theorem read_file_propagates_io_error (pre : List (List Char)) (rest : List ReadResult) :
    readFile (pre.map ReadResult.line ++ ReadResult.ioError :: rest) = Except.error () ∧
    ∀ s : Statistics,
      readFile (pre.map ReadResult.line ++ ReadResult.ioError :: rest) ≠ Except.ok s := by
  refine ⟨readFileAux_error pre Statistics.new rest, ?_⟩
  intro s h
  rw [readFile, readFileAux_error pre Statistics.new rest] at h
  exact Except.noConfusion h

/-- Claim C3: the Add impl of Statistics sums the four u32 counters in
u32 arithmetic, takes the maximum of the two max_line_length fields,
and is associative and commutative. -/
theorem add_sums_maxes_assoc_comm (a b c : Statistics) :
    (a.add b).bytes = (a.bytes + b.bytes) % 4294967296 ∧
    (a.add b).chars = (a.chars + b.chars) % 4294967296 ∧
    (a.add b).lines = (a.lines + b.lines) % 4294967296 ∧
    (a.add b).words = (a.words + b.words) % 4294967296 ∧
    (a.add b).max_line_length = max a.max_line_length b.max_line_length ∧
    (a.add b).add c = a.add (b.add c) ∧
    a.add b = b.add a := by
  refine ⟨rfl, rfl, rfl, rfl, rfl, ?_, ?_⟩
  · ext <;> simp only [Statistics.add] <;> omega
  · ext <;> simp only [Statistics.add] <;> omega

/-- Claim C10: the all-zero snapshot Statistics::new() is a two-sided
identity for the Add impl on every in-range Statistics value, so the
grand total the driver folds onto Statistics::new() equals the
combination of the per-file snapshots alone. -/
theorem new_is_identity_for_add (s : Statistics) (h : s.Valid) :
    Statistics.new.add s = s ∧ s.add Statistics.new = s ∧
    ∀ ss : List Statistics,
      List.foldl Statistics.add Statistics.new (s :: ss) =
        List.foldl Statistics.add s ss := by
  obtain ⟨h1, h2, h3, h4, h5⟩ := h
  have hl : Statistics.new.add s = s := by
    ext <;> simp only [Statistics.add, Statistics.new] <;> omega
  have hr : s.add Statistics.new = s := by
    ext <;> simp only [Statistics.add, Statistics.new] <;> omega
  refine ⟨hl, hr, ?_⟩
  intro ss
  rw [List.foldl_cons, hl]

/-- Witness for claim C10 at a concrete in-range snapshot. -/
theorem new_is_identity_for_add_witness :
    Statistics.new.add ⟨1, 2, 3, 4, 5⟩ = ⟨1, 2, 3, 4, 5⟩ ∧
    Statistics.add ⟨1, 2, 3, 4, 5⟩ Statistics.new = ⟨1, 2, 3, 4, 5⟩ :=
  ⟨(new_is_identity_for_add ⟨1, 2, 3, 4, 5⟩ (by decide)).1,
   (new_is_identity_for_add ⟨1, 2, 3, 4, 5⟩ (by decide)).2.1⟩

/-- Claim C4 (amended): read_file succeeds on an error-free stream and
its bytes field is the u32 value of the sum of the raw byte lengths of
the lines, that is the sum reduced modulo 4294967296; it equals the
exact sum whenever that sum is in u32 range. -/
theorem bytes_eq_sum_mod_u32 (ls : List (List Char)) :
    readFile (ls.map ReadResult.line) = Except.ok (readLines ls) ∧
    (readLines ls).bytes = (ls.map lineBytes).sum % 4294967296 := by
  refine ⟨readFile_map_line ls, ?_⟩
  rw [readLines, foldl_step_bytes ls Statistics.new (by decide)]
  simp [Statistics.new]

/-- Counterexample to claim C4 as stated: on the stream whose single
line holds 4294967296 bytes, the bytes field of the returned snapshot
is 0, not the sum 4294967296 of the raw byte lengths. -/
theorem bytes_truncation_cex :
    readFile [ReadResult.line hugeLine] = Except.ok (readLines [hugeLine]) ∧
    (readLines [hugeLine]).bytes = 0 ∧
    (List.map lineBytes [hugeLine]).sum = 4294967296 := by
  have h1 : lineBytes hugeLine = 4294967296 := by
    simp only [hugeLine, lineBytes_replicate, charUtf8Len_a]
  refine ⟨readFile_map_line [hugeLine], ?_, ?_⟩
  · rw [(readLines_singleton hugeLine).1, h1]
  · simp only [List.map_cons, List.map_nil, List.sum_cons, List.sum_nil, h1]
    omega

/-- Claim C5 (amended): read_file succeeds on an error-free stream and
its chars field is the u32 value of the decoded character count of the
input, that is the count reduced modulo 4294967296; it equals the
exact count whenever it is in u32 range, as on the stream with
content "héllo\n" where chars is 6 while bytes is 7. -/
theorem chars_eq_count_mod_u32 (ls : List (List Char)) :
    readFile (ls.map ReadResult.line) = Except.ok (readLines ls) ∧
    (readLines ls).chars = (ls.map lineChars).sum % 4294967296 ∧
    readString "héllo\n".toList =
      Except.ok { bytes := 7, chars := 6, lines := 1, words := 1, max_line_length := 7 } := by
  refine ⟨readFile_map_line ls, ?_, by rfl⟩
  rw [readLines, foldl_step_chars ls Statistics.new (by decide)]
  simp [Statistics.new]

/-- Counterexample to claim C5 as stated: on the stream whose single
line holds 4294967296 one-byte characters, the chars field of the
returned snapshot is 0, not the decoded character count 4294967296. -/
theorem chars_truncation_cex :
    readFile [ReadResult.line hugeLine] = Except.ok (readLines [hugeLine]) ∧
    (readLines [hugeLine]).chars = 0 ∧
    lineChars hugeLine = 4294967296 := by
  have h1 : lineChars hugeLine = 4294967296 := by
    simp only [lineChars, hugeLine, List.length_replicate]
  refine ⟨readFile_map_line [hugeLine], ?_, h1⟩
  rw [(readLines_singleton hugeLine).2.1, h1]

/-- Claim C2 (amended): read_file succeeds on an error-free stream and
its max_line_length field is the maximum over the lines of the raw
byte length reduced to a u16, that is modulo 65536; it equals the true
maximum whenever every line is shorter than 65536 bytes, as on the
lines "ab\n", "abcde\n", "a\n" where it is 6. -/
theorem max_line_length_eq_max_mod_u16 (ls : List (List Char)) :
    readFile (ls.map ReadResult.line) = Except.ok (readLines ls) ∧
    (readLines ls).max_line_length =
      listMax (ls.map (fun l => lineBytes l % 65536)) ∧
    (readLines ["ab\n".toList, "abcde\n".toList, "a\n".toList]).max_line_length = 6 := by
  refine ⟨readFile_map_line ls, ?_, by rfl⟩
  rw [readLines, foldl_step_max ls Statistics.new]
  simp [Statistics.new]

/-- Counterexample to claim C2 as stated: on the stream whose single
line holds 65536 bytes, the max_line_length field of the returned
snapshot is 0, not the maximum raw byte length 65536. -/
theorem max_line_length_truncation_cex :
    readFile [ReadResult.line longLine] = Except.ok (readLines [longLine]) ∧
    (readLines [longLine]).max_line_length = 0 ∧
    listMax (List.map lineBytes [longLine]) = 65536 := by
  have h1 : lineBytes longLine = 65536 := by
    simp only [longLine, lineBytes_replicate, charUtf8Len_a]
  refine ⟨readFile_map_line [longLine], ?_, ?_⟩
  · rw [(readLines_singleton longLine).2.2, h1]
  · simp only [listMax, List.map_cons, List.map_nil, List.foldr_cons, List.foldr_nil, h1]
    omega

/-- Claim C1 (amended): the rendered per-source report line always
ends with one space and the display name of the source, for every
snapshot, every configuration and every display name: the final
println of Statistics::print appends the name without consulting the
filename toggle, also for the single unnamed standard input whose
display name is the dash. -/
theorem print_always_ends_with_display_name
    (stats : Statistics) (opts : Options) (fname : String) :
    ∃ t : String, Statistics.print stats opts fname = t ++ " " ++ fname := by
  simp only [Statistics.print]
  exact ⟨_, rfl⟩

/-- Counterexample to claim C1 as stated: with the filename column
disabled and the single unnamed standard input, printed under the
display name of standard input, the rendered line still carries the
appended space and name at its end instead of omitting them. -/
theorem print_appends_name_when_disabled_cex :
    cOptsNoFilename.filename = false ∧
    Statistics.print Statistics.new cOptsNoFilename "-" =
      "       0        0        0        0        0 " ++ " -" :=
  ⟨rfl, by decide⟩

/-- Claim C8: push_str_unchecked, the single append path behind both
write_lit and write_fmt, fails hard when the fragment exceeds the
remaining capacity (the panic of the slice indexing, modelled as
none) and otherwise appends exactly the bytes of the fragment after
the untouched existing content: it never silently truncates. -/
theorem push_str_unchecked_no_silent_truncation
    {N : Nat} (fs : FixedString N) (s : List Nat) (hd : fs.data.length = N) :
    fs.write_lit s = fs.push_str_unchecked s ∧
    fs.write_fmt s = fs.push_str_unchecked s ∧
    (N < fs.len + s.length → fs.push_str_unchecked s = none) ∧
    (fs.len + s.length ≤ N →
      ∃ fs2 : FixedString N, fs.push_str_unchecked s = some fs2 ∧
        fs2.len = fs.len + s.length ∧
        fs2.data.length = N ∧
        (fs2.data.drop fs.len).take s.length = s ∧
        fs2.data.take fs.len = fs.data.take fs.len) := by
  refine ⟨rfl, rfl, ?_, ?_⟩
  · intro h
    rw [FixedString.push_str_unchecked, if_neg (by omega)]
  · intro h
    have htake : (fs.data.take fs.len).length = fs.len := by
      rw [List.length_take]
      omega
    rw [FixedString.push_str_unchecked, if_pos h]
    refine ⟨_, rfl, rfl, ?_, ?_, ?_⟩
    · show (fs.data.take fs.len ++ s ++ fs.data.drop (fs.len + s.length)).length = N
      simp only [List.length_append, List.length_take, List.length_drop]
      omega
    · show ((fs.data.take fs.len ++ s ++ fs.data.drop (fs.len + s.length)).drop fs.len).take
        s.length = s
      rw [List.append_assoc, List.drop_left' htake, List.take_left' rfl]
    · show (fs.data.take fs.len ++ s ++ fs.data.drop (fs.len + s.length)).take fs.len =
        fs.data.take fs.len
      rw [List.append_assoc, List.take_left' htake]

/-- Witness for claim C8: a capacity-3 builder filled to 2 rejects a
2-byte fragment, and filled to 1 accepts it, landing at length 3. -/
theorem push_str_unchecked_no_silent_truncation_witness :
    (⟨[0, 0, 0], 2⟩ : FixedString 3).push_str_unchecked [5, 5] = none ∧
    ∃ fs2 : FixedString 3,
      (⟨[0, 0, 0], 1⟩ : FixedString 3).push_str_unchecked [7, 8] = some fs2 ∧ fs2.len = 3 := by
  constructor
  · exact (push_str_unchecked_no_silent_truncation ⟨[0, 0, 0], 2⟩ [5, 5] rfl).2.2.1 (by decide)
  · obtain ⟨fs2, h1, h2, -, -, -⟩ :=
      (push_str_unchecked_no_silent_truncation ⟨[0, 0, 0], 1⟩ [7, 8] rfl).2.2.2 (by decide)
    exact ⟨fs2, h1, h2⟩
